import Mathlib

/-!
Verification of the hybrid FAQ/review retrieval logic of the WiMO
ready-to-wear-saree RAG starter.  The definitions below are shallow
embeddings of the TypeScript route handlers:

* `Wimo`        — helpers shared verbatim by all route variants
                  (`normalize`, `textMatchScore`, `ORDER_KEYWORDS`, ...).
* `SearchRoute` — `app/api/search/route.ts` (FAQ threshold + rescue +
                  review fallback variant).
* `SearchV2`    — the `dbRowToSource` / `rankedReviews` search variant.
* `AnswerRoute` — the `showReviews` / FAQ-first answer variant.

JavaScript numbers are modelled as `ℚ` (all constants in the code are
exactly representable decimals), strings as Lean `String` over their
`List Char` data, and JS `undefined`/`null` fields as `Option`.
-/

namespace Wimo

/-- Lowercase an ASCII letter, as `String.prototype.toLowerCase` does on
the ASCII inputs this system handles. -/
def lowerChar (c : Char) : Char :=
  if 'A' ≤ c ∧ c ≤ 'Z' then Char.ofNat (c.toNat + 32) else c

/-- The ASCII part of the JS regex class `\s` (space, tab, LF, CR, VT, FF). -/
def isJsSpace (c : Char) : Bool :=
  c == ' ' || c == '\t' || c == '\n' || c == '\r' || c == '\x0b' || c == '\x0c'

/-- Membership in the regex class `[a-z0-9]`. -/
def isLowerAlnum (c : Char) : Bool :=
  ('a' ≤ c && c ≤ 'z') || ('0' ≤ c && c ≤ '9')

/-- One character of `.replace(/[^a-z0-9\s]/g, " ")`. -/
def keepAlnumSpace (c : Char) : Char :=
  if isLowerAlnum c || isJsSpace c then c else ' '

/-- Helper of `collapseSpaces`; the flag records whether the previous
character was whitespace (whose run already emitted one space). -/
def collapseAux : Bool → List Char → List Char
  | _, [] => []
  | prevSpace, c :: cs =>
    if isJsSpace c then
      if prevSpace then collapseAux true cs else ' ' :: collapseAux true cs
    else c :: collapseAux false cs

/-- `.replace(/\s+/g, " ")`: every maximal whitespace run becomes one space. -/
def collapseSpaces (l : List Char) : List Char := collapseAux false l

/-- `String.prototype.trim` on character lists. -/
def trimL (l : List Char) : List Char :=
  ((l.dropWhile isJsSpace).reverse.dropWhile isJsSpace).reverse

/-- `normalize` as defined identically in every route variant:
lowercase, replace non-alphanumerics by spaces, collapse whitespace, trim. -/
def normalize (s : String) : String :=
  ⟨trimL (collapseSpaces ((s.data.map lowerChar).map keepAlnumSpace))⟩

/-- Does `pre` occur at the start of `l`?  (`String.prototype.startsWith`.) -/
def startsWithL : List Char → List Char → Bool
  | _, [] => true
  | [], _ :: _ => false
  | c :: cs, p :: ps => c == p && startsWithL cs ps

/-- Does `w` occur as a contiguous substring of `t`?
(`String.prototype.includes`.) -/
def containsL : List Char → List Char → Bool
  | [], w => w.isEmpty
  | c :: cs, w => startsWithL (c :: cs) w || containsL cs w

/-- Helper of `splitOnSpace`, accumulating the current field reversed. -/
def splitSpaceAux : List Char → List Char → List (List Char)
  | [], acc => [acc.reverse]
  | c :: cs, acc =>
    if c == ' ' then acc.reverse :: splitSpaceAux cs []
    else splitSpaceAux cs (c :: acc)

/-- `String.prototype.split(" ")` on character lists. -/
def splitOnSpace (l : List Char) : List (List Char) := splitSpaceAux l []

/-- `normalize(query).split(" ").filter(Boolean)`: the query tokens. -/
def queryTokens (q : String) : List (List Char) :=
  (splitOnSpace (normalize q).data).filter (fun t => !t.isEmpty)

/-- `textMatchScore` / `scoreReview` / `scoreText` — the lexical scorer every
variant defines identically: the number of query tokens contained as
substrings of the normalized text. -/
def textMatchScore (text query : String) : ℕ :=
  (queryTokens query).countP (fun w => containsL (normalize text).data w)

/-- The `ORDER_KEYWORDS` rescue list. -/
def ORDER_KEYWORDS : List String :=
  ["order", "delivery", "when will i get", "where is my order",
   "track my order", "status", "pickup", "courier", "delayed"]

/-- `ORDER_KEYWORDS.some((kw) => normQ.includes(kw))`. -/
def looksLikeOrder (query : String) : Bool :=
  ORDER_KEYWORDS.any (fun kw => containsL (normalize query).data kw.data)

/-- The rescue score: how many intent keywords the normalized content
contains (`ORDER_KEYWORDS.reduce((acc, kw) => acc + ...)`). -/
def orderScore (content : String) : ℕ :=
  ORDER_KEYWORDS.countP (fun kw => containsL (normalize content).data kw.data)

/-- JS truthiness of an optional string: `undefined`, `null` and `""` are
falsy, so `a || b` keeps `a` exactly when it is a non-empty string. -/
def truthy : Option String → Option String
  | some s => if s = "" then none else some s
  | none => none

/-- The first truthy value of a `a.x || a.y || ...` chain. -/
def firstTruthy : List (Option String) → Option String
  | [] => none
  | o :: os =>
    match truthy o with
    | some s => some s
    | none => firstTruthy os

/-- The positional bonus `Math.max(0, 5 - idx) * 0.2` added to the lexical
score of the review at position `idx` of the vector ordering. -/
def posBonus (idx : ℕ) : ℚ := ((max 0 (5 - (idx : ℤ)) : ℤ) : ℚ) * 0.2

/-- A `meta` JSON object, as probed by the bucket classifiers: only the
`source`, `type` and `sourceBucket` keys are ever read. -/
structure Meta where
  source : Option String := none
  type : Option String := none
  sourceBucket : Option String := none
deriving DecidableEq

end Wimo

namespace SearchRoute

open Wimo

/-- `FAQ_MIN_SIM` in `app/api/search/route.ts`. -/
def FAQ_MIN_SIM : ℚ := 0.55

/-- `REVIEW_GOOGLE_URL`. -/
def REVIEW_GOOGLE_URL : String :=
  "https://www.google.com/search?q=wimo+ready+to+wear+saree+reviews"

/-- A row of the FAQ query (`document_chunks` joined with `documents`,
embeddings present, ordered by vector distance). -/
structure FaqRow where
  documentId : ℕ
  url : Option String
  meta : Option Meta
  chunkIndex : ℕ
  content : String
  similarity : ℚ
deriving DecidableEq

/-- `const m = r.meta || {}; m.source || m.type || m.sourceBucket || "faq"`. -/
def rowSource (r : FaqRow) : String :=
  let m := r.meta.getD {}
  (firstTruthy [m.source, m.type, m.sourceBucket]).getD "faq"

/-- The primary FAQ filter: bucket `faq` and similarity at least the
threshold. -/
def passesFaqFilter (r : FaqRow) : Bool :=
  rowSource r == "faq" && decide (FAQ_MIN_SIM ≤ r.similarity)

/-- Primary FAQ selection: `faqRows.filter(...).slice(0, 3)`. -/
def faqPrimary (rows : List FaqRow) : List FaqRow :=
  (rows.filter passesFaqFilter).take 3

/-- Descending stable order on the rescue score, the relation realised by
`sort((a, b) => b.orderScore - a.orderScore)` (JS sort is stable). -/
def orderRel (a b : FaqRow) : Prop := orderScore b.content ≤ orderScore a.content

instance : DecidableRel orderRel :=
  fun a b => inferInstanceAs (Decidable (orderScore b.content ≤ orderScore a.content))

instance : IsTotal FaqRow orderRel :=
  ⟨fun a b => Nat.le_total (orderScore b.content) (orderScore a.content)⟩

instance : IsTrans FaqRow orderRel :=
  ⟨fun _ _ _ h1 h2 => Nat.le_trans h2 h1⟩

/-- The order/delivery rescue block: if the normalized query contains an
intent keyword, re-score every faq-bucket row by `orderScore`, keep the
positive ones, sort descending and take one.  (The JS code carries the
score in an `orderScore` field of a copied record; here the sort key is
recomputed, which yields the same list of rows.) -/
def rescued (query : String) (rows : List FaqRow) : List FaqRow :=
  if looksLikeOrder query then
    ((((rows.filter (fun r => rowSource r == "faq")).filter
        (fun r => decide (0 < orderScore r.content))).insertionSort orderRel).take 1)
  else []

/-- The final `faqHits`: the primary selection, replaced by the rescue
result when the primary selection is empty and the rescue found a row. -/
def faqHits (query : String) (rows : List FaqRow) : List FaqRow :=
  let primary := faqPrimary rows
  if primary.isEmpty then
    let o := rescued query rows
    if o.isEmpty then primary else o
  else primary

/-- The record built by `parseReviewText` (absent JS fields are `none`). -/
structure ParsedReview where
  reviewer : Option String := none
  rating : Option ℚ := none
  date : Option String := none
  review : Option String := none
  sourceUrl : Option String := none
  raw : String
deriving DecidableEq

/-- Helper of `splitLinesL`: split on `\r\n` or `\n` (the regex `/\r?\n/`). -/
def splitLinesAux : List Char → List Char → List (List Char)
  | [], acc => [acc.reverse]
  | '\r' :: '\n' :: cs, acc => acc.reverse :: splitLinesAux cs []
  | '\n' :: cs, acc => acc.reverse :: splitLinesAux cs []
  | c :: cs, acc => splitLinesAux cs (c :: acc)

/-- `raw.split(/\r?\n/)`. -/
def splitLinesL (l : List Char) : List (List Char) := splitLinesAux l []

/-- `raw.split(/\r?\n/).map((l) => l.trim()).filter(Boolean)`. -/
def parsedLines (raw : String) : List (List Char) :=
  ((splitLinesL raw.data).map trimL).filter (fun l => !l.isEmpty)

/-- Helper of `splitColon`: split on `:`. -/
def splitColonAux : List Char → List Char → List (List Char)
  | [], acc => [acc.reverse]
  | c :: cs, acc =>
    if c == ':' then acc.reverse :: splitColonAux cs []
    else splitColonAux cs (c :: acc)

/-- `line.split(":")`. -/
def splitColon (l : List Char) : List (List Char) := splitColonAux l []

/-- `line.split(":").slice(1).join(":").trim()` — everything after the
first colon. -/
def afterColon (l : List Char) : List Char :=
  trimL (List.intercalate [':'] ((splitColon l).drop 1))

/-- Digit test for `[0-9]`. -/
def isDigitL (c : Char) : Bool := '0' ≤ c && c ≤ '9'

/-- Numeric value of a digit list. -/
def digitsVal (l : List Char) : ℕ :=
  l.foldl (fun acc c => 10 * acc + (c.toNat - '0'.toNat)) 0

/-- JS `Number()` on an already trimmed string, for the decimal numerals
this code ever feeds it: `""` is `0`, an optional sign, then digits with
at most one decimal point (`"5."` and `".5"` are accepted).  Exponent,
hexadecimal and `Infinity` forms are not modelled; any other shape is
`NaN`, that is, `none`. -/
def parseNumber (l : List Char) : Option ℚ :=
  match l with
  | [] => some 0
  | _ =>
    let neg := match l with | '-' :: _ => true | _ => false
    let rest := match l with | '-' :: t => t | '+' :: t => t | _ => l
    let intDigits := rest.takeWhile isDigitL
    let rest2 := rest.dropWhile isDigitL
    match rest2 with
    | [] =>
      if intDigits.isEmpty then none
      else some (if neg then -(digitsVal intDigits : ℚ) else (digitsVal intDigits : ℚ))
    | '.' :: frac =>
      if frac.all isDigitL ∧ (¬intDigits.isEmpty ∨ ¬frac.isEmpty) then
        let v : ℚ :=
          (digitsVal intDigits : ℚ) +
            (if frac.isEmpty then 0 else (digitsVal frac : ℚ) / (10 ^ frac.length : ℚ))
        some (if neg then -v else v)
      else none
    | _ => none

/-- One iteration of the field loop of `parseReviewText`: the line is
lowercased, matched against the known labels, and the matching field is
(re)assigned — a later matching line overwrites an earlier one.  A label
line begins with the label, so `line.replace(/label:/i, "")` removes
exactly the first `label.length` characters. -/
def applyLine (out : ParsedReview) (line : List Char) : ParsedReview :=
  let low := line.map lowerChar
  if startsWithL low "reviewer:".data then
    { out with reviewer := some ⟨afterColon line⟩ }
  else if startsWithL low "rating:".data then
    match parseNumber (trimL (line.drop 7)) with
    | some q => { out with rating := some q }
    | none => out
  else if startsWithL low "date:".data then
    { out with date := some ⟨trimL (line.drop 5)⟩ }
  else if startsWithL low "source:".data then
    { out with sourceUrl := some ⟨trimL (line.drop 7)⟩ }
  else out

/-- Is this the `Review:`/`Comment:` body line? -/
def isBodyLine (line : List Char) : Bool :=
  startsWithL (line.map lowerChar) "review:".data ||
    startsWithL (line.map lowerChar) "comment:".data

/-- `parseReviewText` of `app/api/search/route.ts`: line-oriented
extraction of reviewer, rating, date and source, then the body from the
first `Review:`/`Comment:` line, else the whole raw text trimmed.  An
empty (falsy) input returns early with only `raw` set. -/
def parseReviewText (raw : String) : ParsedReview :=
  if raw = "" then { raw := raw }
  else
    let lines := parsedLines raw
    let out := lines.foldl applyLine { raw := raw }
    match lines.find? isBodyLine with
    | some l => { out with review := some ⟨afterColon l⟩ }
    | none => { out with review := some ⟨trimL raw.data⟩ }

/-- A row of the review query (rows tagged `google-review`, embeddings
possibly null, ordered by `created_at` descending in SQL). -/
structure ReviewRow where
  documentId : ℕ
  url : Option String
  meta : Option Meta
  chunkIndex : ℕ
  content : String
deriving DecidableEq

/-- `parsed.review || parsed.raw`: the scored text (an empty body is
falsy, so it also falls back to the raw text). -/
def reviewOrRaw (p : ParsedReview) : String := (truthy p.review).getD p.raw

/-- A review row with its parse and its `__score`. -/
structure ScoredReview where
  row : ReviewRow
  parsed : ParsedReview
  score : ℕ
deriving DecidableEq

/-- The map step: parse each review row and score it against the query. -/
def scoredReviews (reviewRows : List ReviewRow) (query : String) : List ScoredReview :=
  reviewRows.map (fun r =>
    let parsed := parseReviewText r.content
    { row := r, parsed := parsed, score := textMatchScore (reviewOrRaw parsed) query })

/-- Descending stable order on `__score`
(`sort((a, b) => b.__score - a.__score)`). -/
def scoreRel (a b : ScoredReview) : Prop := b.score ≤ a.score

instance : DecidableRel scoreRel :=
  fun a b => inferInstanceAs (Decidable (b.score ≤ a.score))

instance : IsTotal ScoredReview scoreRel := ⟨fun a b => Nat.le_total b.score a.score⟩

instance : IsTrans ScoredReview scoreRel := ⟨fun _ _ _ h1 h2 => Nat.le_trans h2 h1⟩

/-- A review item of the response. -/
structure ReviewItem where
  source : String
  reviewer : Option String
  rating : Option ℚ
  date : Option String
  text : String
  sourceUrl : String
deriving DecidableEq

/-- The projection to a response item (`||` turns falsy fields into
`null`, so a parsed rating of `0` is dropped too). -/
def toItem (s : ScoredReview) : ReviewItem :=
  { source := "google-review"
    reviewer := truthy s.parsed.reviewer
    rating := match s.parsed.rating with
      | some q => if q = 0 then none else some q
      | none => none
    date := truthy s.parsed.date
    text := reviewOrRaw s.parsed
    sourceUrl := (truthy s.parsed.sourceUrl).getD REVIEW_GOOGLE_URL }

/-- The three hardcoded reviews used when the DB has no review rows. -/
def fallbackReviews : List ReviewItem :=
  [{ source := "google-review", reviewer := none, rating := none,
     date := some "2025-10-21",
     text := "Loved the ready to wear saree! The fit and finishing were amazing.",
     sourceUrl := REVIEW_GOOGLE_URL },
   { source := "google-review", reviewer := none, rating := none,
     date := some "2025-09-29",
     text := "Excellent service, they even customized the saree to my measurements.",
     sourceUrl := REVIEW_GOOGLE_URL },
   { source := "google-review", reviewer := none, rating := none,
     date := some "2025-09-15",
     text := "Delivery was super quick and the saree draped beautifully!",
     sourceUrl := REVIEW_GOOGLE_URL }]

/-- The `reviewItems` block: parse, score, sort descending, take three —
or the hardcoded fallback when the DB returned no review rows at all. -/
def reviewItems (reviewRows : List ReviewRow) (query : String) : List ReviewItem :=
  if reviewRows.isEmpty then fallbackReviews
  else (((scoredReviews reviewRows query).insertionSort scoreRel).take 3).map toItem

/-- The response `source` field:
`faqBlock.found ? "faq" : reviewItems.length > 0 ? "google-review" : "none"`. -/
def responseSource (faqFound : Bool) (items : List ReviewItem) : String :=
  if faqFound then "faq" else if !items.isEmpty then "google-review" else "none"

end SearchRoute

namespace SearchV2

open Wimo

/-- `MAX_REVIEW_RETURN`. -/
def MAX_REVIEW_RETURN : ℕ := 3

/-- The fields of a retrieval row probed by `dbRowToSource`:
chunk-level `dc.meta`, document-level `d.meta as doc_meta`, and a
top-level `sourceBucket` column (absent from the query, hence normally
`undefined`). -/
structure V2Row where
  meta : Option Meta := none
  docMeta : Option Meta := none
  sourceBucket : Option String := none
deriving DecidableEq

/-- `dbRowToSource`: first truthy value of
`m.source || m.type || m.sourceBucket || d.source || d.type ||
d.sourceBucket || row.sourceBucket || "faq"`, then restricted to the
closed set `faq` / `google-review` / `unknown`. -/
def dbRowToSource (row : V2Row) : String :=
  let m := row.meta.getD {}
  let d := row.docMeta.getD {}
  let src := (firstTruthy
    [m.source, m.type, m.sourceBucket,
     d.source, d.type, d.sourceBucket, row.sourceBucket]).getD "faq"
  if src = "faq" then "faq"
  else if src = "google-review" then "google-review"
  else "unknown"

/-- A parsed review entry fed to `rankedReviews` (the `rv.review` payload
of an enriched `google-review` row, in vector-similarity order). -/
structure PReview where
  reviewer : Option String := none
  rating : Option ℚ := none
  date : Option String := none
  text : String
deriving DecidableEq

/-- The total review score at list position `idx`:
`textMatchScore(rv.review.text, query) + Math.max(0, 5 - idx) * 0.2`. -/
def reviewTotal (text query : String) (idx : ℕ) : ℚ :=
  (textMatchScore text query : ℚ) + posBonus idx

/-- A review entry together with its `_score`. -/
structure RankedReview where
  reviewer : Option String
  rating : Option ℚ
  date : Option String
  text : String
  score : ℚ
deriving DecidableEq

/-- The map step of `rankedReviews` (`reviewer || null`, `rating ?? null`,
`date || null` — note `??` keeps a rating of `0` while `||` would not). -/
def toRanked (query : String) (idx : ℕ) (rv : PReview) : RankedReview :=
  { reviewer := truthy rv.reviewer
    rating := rv.rating
    date := truthy rv.date
    text := rv.text
    score := reviewTotal rv.text query idx }

/-- `parsedReviews.map((rv, idx) => ...)` with explicit position counter. -/
def rankedFrom (query : String) : ℕ → List PReview → List RankedReview
  | _, [] => []
  | idx, rv :: rest => toRanked query idx rv :: rankedFrom query (idx + 1) rest

/-- Descending stable order on `_score`
(`sort((a, b) => b._score - a._score)`). -/
def rankRel (a b : RankedReview) : Prop := b.score ≤ a.score

instance : DecidableRel rankRel :=
  fun a b => inferInstanceAs (Decidable (b.score ≤ a.score))

instance : IsTotal RankedReview rankRel := ⟨fun a b => le_total b.score a.score⟩

instance : IsTrans RankedReview rankRel := ⟨fun _ _ _ h1 h2 => le_trans h2 h1⟩

/-- `rankedReviews`: score each parsed review (lexical + positional
bonus), drop non-positive scores, sort descending, keep the top three. -/
def rankedReviews (parsedReviews : List PReview) (query : String) : List RankedReview :=
  ((((rankedFrom query 0 parsedReviews).filter
      (fun rv => decide (0 < rv.score))).insertionSort rankRel).take MAX_REVIEW_RETURN)

end SearchV2

namespace AnswerRoute

open Wimo

/-- `FAQ_MIN_SIM` of the answer route. -/
def FAQ_MIN_SIM : ℚ := 0.78

/-- `MAX_FAQ_RETURN`. -/
def MAX_FAQ_RETURN : ℕ := 3

/-- `MAX_REVIEW_RETURN`. -/
def MAX_REVIEW_RETURN : ℕ := 3

/-- `REVIEW_GOOGLE_URL`. -/
def REVIEW_GOOGLE_URL : String :=
  "https://www.google.com/search?q=wimo+ready+to+wear+saree+reviews"

/-- A row of the CASE B nearest-neighbour query. -/
structure ARow where
  content : String
  similarity : ℚ
  meta : Option Meta := none
  url : Option String := none
deriving DecidableEq

/-- The row tag
`(r.meta && typeof r.meta === "object" && (r.meta.source || r.meta.type)) || "faq"`. -/
def aSource (r : ARow) : String :=
  match r.meta with
  | none => "faq"
  | some m => (firstTruthy [m.source, m.type]).getD "faq"

/-- CASE B FAQ selection: tag `faq`, similarity at least `FAQ_MIN_SIM`,
first `MAX_FAQ_RETURN` rows. -/
def aFaqHits (rows : List ARow) : List ARow :=
  (rows.filter (fun r => aSource r == "faq" && decide (FAQ_MIN_SIM ≤ r.similarity))).take
    MAX_FAQ_RETURN

/-- A row of the CASE A review query (`created_at` modelled as an integer
timestamp, as only its relative order is ever used). -/
structure ARevRow where
  content : String
  url : Option String := none
  meta : Option Meta := none
  createdAt : ℤ := 0
deriving DecidableEq

/-- CASE A comparator: score descending, then `created_at` descending
(`if (b._score !== a._score) return b._score - a._score; return
new Date(b.created_at) - new Date(a.created_at)`), as a stable order. -/
def aRevRel (query : String) (a b : ARevRow) : Prop :=
  textMatchScore b.content query < textMatchScore a.content query ∨
    (textMatchScore a.content query = textMatchScore b.content query ∧
      b.createdAt ≤ a.createdAt)

instance (query : String) : DecidableRel (aRevRel query) := fun a b =>
  inferInstanceAs (Decidable
    (textMatchScore b.content query < textMatchScore a.content query ∨
      (textMatchScore a.content query = textMatchScore b.content query ∧
        b.createdAt ≤ a.createdAt)))

instance (query : String) : IsTotal ARevRow (aRevRel query) :=
  ⟨fun a b => by
    unfold aRevRel
    rcases Nat.lt_trichotomy (textMatchScore a.content query)
        (textMatchScore b.content query) with h | h | h
    · exact Or.inr (Or.inl h)
    · rcases Int.le_total b.createdAt a.createdAt with h2 | h2
      · exact Or.inl (Or.inr ⟨h, h2⟩)
      · exact Or.inr (Or.inr ⟨h.symm, h2⟩)
    · exact Or.inl (Or.inl h)⟩

instance (query : String) : IsTrans ARevRow (aRevRel query) :=
  ⟨fun a b c hab hbc => by
    unfold aRevRel at *
    rcases hab with h1 | ⟨e1, d1⟩
    · rcases hbc with h2 | ⟨e2, d2⟩
      · exact Or.inl (h2.trans h1)
      · exact Or.inl (e2 ▸ h1)
    · rcases hbc with h2 | ⟨e2, d2⟩
      · exact Or.inl (e1 ▸ h2)
      · exact Or.inr ⟨e1.trans e2, d2.trans d1⟩⟩

/-- CASE A ranking: when rows exist, sort by lexical score then recency
(the JS maps in a `_score` field first; the sort key is recomputed here). -/
def caseARanked (reviewRows : List ARevRow) (query : String) : List ARevRow :=
  if reviewRows.isEmpty then reviewRows
  else reviewRows.insertionSort (aRevRel query)

/-- One item of the response `results` array.  FAQ items carry a
similarity, review items a link. -/
structure AResult where
  content : String
  similarity : Option ℚ := none
  source : String
  link : Option String := none
deriving DecidableEq

/-- The response shape of the answer route. -/
structure AResponse where
  source : String
  results : List AResult
  canShowReviews : Option Bool := none
  message : Option String := none
  reviewLink : Option String := none
deriving DecidableEq

/-- CASE A (`showReviews` set): always `source=google-review` with the
top `MAX_REVIEW_RETURN` ranked review rows. -/
def answerCaseA (reviewRows : List ARevRow) (query : String) : AResponse :=
  { source := "google-review"
    results := ((caseARanked reviewRows query).take MAX_REVIEW_RETURN).map (fun r =>
      { content := r.content, source := "google-review", link := some REVIEW_GOOGLE_URL })
    reviewLink := some REVIEW_GOOGLE_URL }

/-- CASE B (normal chat): FAQ hits if any, else `source=none` with an
empty result list and the user-facing miss message. -/
def answerCaseB (rows : List ARow) : AResponse :=
  let hits := aFaqHits rows
  if hits.isEmpty then
    { source := "none"
      results := []
      canShowReviews := some true
      message := some
        "I could not find this in FAQs. Do you want to see what customers said about WiMO?" }
  else
    { source := "faq"
      results := hits.map (fun r =>
        { content := r.content, similarity := some r.similarity, source := "faq" })
      canShowReviews := some true }

/-- The whole POST decision: `showReviews` dispatches to CASE A,
otherwise CASE B runs FAQ-first. -/
def answerPost (wantReviewsOnly : Bool) (reviewRows : List ARevRow)
    (rows : List ARow) (query : String) : AResponse :=
  if wantReviewsOnly then answerCaseA reviewRows query else answerCaseB rows

end AnswerRoute

section ConcreteInputs

/-- Six-review input whose stable ranking exhibits the bonus tie at a
lexical gap of one (positions 0 and 5). -/
def c5List : List SearchV2.PReview :=
  [{ text := "dress" }, { text := "zzz" }, { text := "zzz" }, { text := "zzz" },
   { text := "zzz" }, { text := "blue dress" }]

/-- A faq-bucket row below the similarity threshold whose content scores
two intent keywords. -/
def c3wRow : SearchRoute.FaqRow :=
  { documentId := 1, url := none, meta := none, chunkIndex := 0,
    content := "how to track your order status", similarity := 0.3 }

/-- Candidate list for the rescue witness. -/
def c3wRows : List SearchRoute.FaqRow := [c3wRow]

/-- Single-review input for the ranking witness. -/
def c4wList : List SearchV2.PReview := [{ text := "great saree" }]

/-- An untagged faq-bucket row with the given id, above the threshold. -/
def c6Row (i : ℕ) : SearchRoute.FaqRow :=
  { documentId := i, url := none, meta := none, chunkIndex := 0,
    content := "", similarity := 0.9 }

/-- Four above-threshold faq rows: one more than the `slice(0, 3)` cap. -/
def c6Rows : List SearchRoute.FaqRow := [c6Row 1, c6Row 2, c6Row 3, c6Row 4]

/-- An untagged faq-bucket row slightly above the threshold. -/
def c6wRow : SearchRoute.FaqRow :=
  { documentId := 9, url := none, meta := none, chunkIndex := 0,
    content := "x", similarity := 0.6 }

/-- Singleton candidate list for the threshold witness. -/
def c6wRows : List SearchRoute.FaqRow := [c6wRow]

/-- An above-threshold answer-route faq row. -/
def c1wRow : AnswerRoute.ARow := { content := "We ship internationally", similarity := 0.8 }

end ConcreteInputs

/-- A `||` chain of entirely falsy values falls through to its default. -/
lemma firstTruthy_eq_none (l : List (Option String))
    (h : ∀ o ∈ l, Wimo.truthy o = none) : Wimo.firstTruthy l = none := by
  induction l with
  | nil => rfl
  | cons o os ih =>
    have ho := h o (List.mem_cons_self o os)
    simp only [Wimo.firstTruthy, ho]
    exact ih (fun x hx => h x (List.mem_cons_of_mem o hx))

/-- C7: a retrieval row carrying no source/bucket tag in any of the probed
fields (chunk meta, document meta, top-level column) is classified `faq`,
not `unknown`, by `dbRowToSource` — the priority chain bottoms out at the
deliberate `faq` default. -/
theorem searchV2_untagged_faq (row : SearchV2.V2Row)
    (h : ∀ o ∈ [(row.meta.getD {}).source, (row.meta.getD {}).type,
        (row.meta.getD {}).sourceBucket, (row.docMeta.getD {}).source,
        (row.docMeta.getD {}).type, (row.docMeta.getD {}).sourceBucket,
        row.sourceBucket], Wimo.truthy o = none) :
    SearchV2.dbRowToSource row = "faq" ∧ SearchV2.dbRowToSource row ≠ "unknown" := by
  have hnone := firstTruthy_eq_none _ h
  have hsrc : SearchV2.dbRowToSource row = "faq" := by
    simp only [SearchV2.dbRowToSource, hnone, Option.getD_none, if_pos rfl, if_true]
  exact ⟨hsrc, by rw [hsrc]; decide⟩

/-- Witness for C7: the all-fields-absent row is classified `faq`. -/
theorem searchV2_untagged_faq_witness :
    SearchV2.dbRowToSource {} = "faq" ∧ SearchV2.dbRowToSource {} ≠ "unknown" :=
  searchV2_untagged_faq {} (by decide)

/-- C8: the review parser maps the canonical labelled review text to the
expected reviewer, rating, date and body. -/
theorem searchRoute_parse_roundtrip :
    SearchRoute.parseReviewText
        "Reviewer: Jane Doe\nRating: 5\nDate: 2024-01-01\nReview: Great fit" =
      { reviewer := some "Jane Doe", rating := some 5, date := some "2024-01-01",
        review := some "Great fit", sourceUrl := none,
        raw := "Reviewer: Jane Doe\nRating: 5\nDate: 2024-01-01\nReview: Great fit" } := by
  decide

/-- Counterexample to C9: on the empty string the parser returns early and
sets no body at all, and on a whitespace-only string the body is the empty
string — so the body can be null (absent) and parsed text can be empty. -/
theorem searchRoute_parse_body_cex :
    (SearchRoute.parseReviewText "").review = none ∧
      (SearchRoute.parseReviewText " ").review = some "" := by
  exact ⟨rfl, by decide⟩

/-- C9 (amended): the parser is total; the body is absent exactly on the
empty input; for non-empty input with no `Review:`/`Comment:` line the
body is the whole raw text trimmed (which may itself be empty). -/
theorem searchRoute_parse_body_amended (raw : String) :
    ((SearchRoute.parseReviewText raw).review = none ↔ raw = "") ∧
    (raw ≠ "" → ((SearchRoute.parsedLines raw).find? SearchRoute.isBodyLine = none →
      (SearchRoute.parseReviewText raw).review = some ⟨Wimo.trimL raw.data⟩)) ∧
    (raw ≠ "" → ∀ l, (SearchRoute.parsedLines raw).find? SearchRoute.isBodyLine = some l →
      (SearchRoute.parseReviewText raw).review = some ⟨SearchRoute.afterColon l⟩) := by
  unfold SearchRoute.parseReviewText
  by_cases hraw : raw = ""
  · simp [hraw]
  · refine ⟨?_, ?_, ?_⟩
    · simp only [if_neg hraw]
      constructor
      · intro h
        exfalso
        cases hfind : (SearchRoute.parsedLines raw).find? SearchRoute.isBodyLine with
        | none => rw [hfind] at h; simp at h
        | some l => rw [hfind] at h; simp at h
      · intro h; exact absurd h hraw
    · intro _ hfind
      simp only [if_neg hraw, hfind]
    · intro _ l hfind
      simp only [if_neg hraw, hfind]

/-- Witness for C9 (amended): a one-word input gets its own trimmed text
as body. -/
theorem searchRoute_parse_body_amended_witness :
    (SearchRoute.parseReviewText "x").review = some "x" := by
  have h := (searchRoute_parse_body_amended "x").2.1 (by decide) (by decide)
  rw [h]
  decide

/-- C1: when the caller has not set `showReviews` and the FAQ selection is
non-empty, the answer route responds with `source=faq`,
`canShowReviews=true`, and only FAQ items in `results`; a review item can
appear in `results` only when reviews were explicitly requested or the
FAQ selection was empty. -/
theorem answerRoute_faq_priority (wantReviewsOnly : Bool)
    (reviewRows : List AnswerRoute.ARevRow) (rows : List AnswerRoute.ARow)
    (query : String) :
    (wantReviewsOnly = false → AnswerRoute.aFaqHits rows ≠ [] →
      (AnswerRoute.answerPost wantReviewsOnly reviewRows rows query).source = "faq" ∧
      (AnswerRoute.answerPost wantReviewsOnly reviewRows rows query).canShowReviews =
        some true ∧
      ∀ it ∈ (AnswerRoute.answerPost wantReviewsOnly reviewRows rows query).results,
        it.source = "faq") ∧
    (∀ it ∈ (AnswerRoute.answerPost wantReviewsOnly reviewRows rows query).results,
      it.source = "google-review" →
        wantReviewsOnly = true ∨ AnswerRoute.aFaqHits rows = []) := by
  cases wantReviewsOnly with
  | true =>
    constructor
    · intro hfalse
      exact absurd hfalse (by decide)
    · intro it _ _
      exact Or.inl rfl
  | false =>
    have hpost : AnswerRoute.answerPost false reviewRows rows query =
        AnswerRoute.answerCaseB rows := by
      simp [AnswerRoute.answerPost]
    rw [hpost]
    by_cases hfaq : AnswerRoute.aFaqHits rows = []
    · have hcb : AnswerRoute.answerCaseB rows =
          { source := "none", results := [], canShowReviews := some true,
            message := some
              "I could not find this in FAQs. Do you want to see what customers said about WiMO?" } := by
        simp [AnswerRoute.answerCaseB, hfaq]
      constructor
      · intro _ hne
        exact absurd hfaq hne
      · intro it hit _
        rw [hcb] at hit
        simp at hit
    · have hni : ¬ (AnswerRoute.aFaqHits rows).isEmpty = true := by
        simpa [List.isEmpty_iff] using hfaq
      have hcb : AnswerRoute.answerCaseB rows =
          { source := "faq"
            results := (AnswerRoute.aFaqHits rows).map (fun r =>
              { content := r.content, similarity := some r.similarity, source := "faq" })
            canShowReviews := some true } := by
        simp only [AnswerRoute.answerCaseB]
        rw [if_neg hni]
      rw [hcb]
      constructor
      · intro _ _
        refine ⟨rfl, rfl, ?_⟩
        intro it hit
        obtain ⟨r, _, hr⟩ := List.mem_map.mp hit
        rw [← hr]
      · intro it hit hsrc
        obtain ⟨r, _, hr⟩ := List.mem_map.mp hit
        have hfq : it.source = "faq" := by rw [← hr]
        rw [hfq] at hsrc
        exact absurd hsrc (by decide)

/-- Witness for C1: one above-threshold faq row makes the response a
`faq`-sourced answer that invites a review follow-up. -/
theorem answerRoute_faq_priority_witness :
    (AnswerRoute.answerPost false [] [c1wRow] "do you ship").source = "faq" ∧
    (AnswerRoute.answerPost false [] [c1wRow] "do you ship").canShowReviews = some true := by
  have hne : AnswerRoute.aFaqHits [c1wRow] ≠ [] := by
    norm_num [AnswerRoute.aFaqHits, AnswerRoute.aSource, AnswerRoute.FAQ_MIN_SIM,
      AnswerRoute.MAX_FAQ_RETURN, c1wRow, List.filter]
  have h := (answerRoute_faq_priority false [] [c1wRow] "do you ship").1 rfl hne
  exact ⟨h.1, h.2.1⟩

/-- C2: when the FAQ selection is empty (and the review ranking of the
explicit-review path would also be empty), the non-review call answers
with `source=none`, an empty result list, and the user-facing miss
message. -/
theorem answerRoute_double_miss (reviewRows : List AnswerRoute.ARevRow)
    (rows : List AnswerRoute.ARow) (query : String)
    (hfaq : AnswerRoute.aFaqHits rows = [])
    (_hrev : AnswerRoute.caseARanked reviewRows query = []) :
    (AnswerRoute.answerPost false reviewRows rows query).source = "none" ∧
    (AnswerRoute.answerPost false reviewRows rows query).results = [] ∧
    (AnswerRoute.answerPost false reviewRows rows query).message =
      some "I could not find this in FAQs. Do you want to see what customers said about WiMO?" := by
  have hpost : AnswerRoute.answerPost false reviewRows rows query =
      AnswerRoute.answerCaseB rows := by
    simp [AnswerRoute.answerPost]
  have hcb : AnswerRoute.answerCaseB rows =
      { source := "none", results := [], canShowReviews := some true,
        message := some
          "I could not find this in FAQs. Do you want to see what customers said about WiMO?" } := by
    simp [AnswerRoute.answerCaseB, hfaq]
  rw [hpost, hcb]
  exact ⟨rfl, rfl, rfl⟩

/-- Witness for C2: with no candidates at all, the response is the
`source=none` miss. -/
theorem answerRoute_double_miss_witness :
    (AnswerRoute.answerPost false [] [] "anything").source = "none" ∧
    (AnswerRoute.answerPost false [] [] "anything").results = [] ∧
    (AnswerRoute.answerPost false [] [] "anything").message =
      some "I could not find this in FAQs. Do you want to see what customers said about WiMO?" :=
  answerRoute_double_miss [] [] "anything" rfl (by simp [AnswerRoute.caseARanked])

/-- C10: when the review query returns no rows the search route
substitutes three hardcoded reviews (dated 2025-10-21, 2025-09-29,
2025-09-15); consequently the review list is never empty and, on an FAQ
miss, the response source is `google-review`, never `none`. -/
theorem searchRoute_review_fallback (reviewRows : List SearchRoute.ReviewRow)
    (query : String) :
    (reviewRows = [] →
      SearchRoute.reviewItems reviewRows query = SearchRoute.fallbackReviews) ∧
    SearchRoute.fallbackReviews.map SearchRoute.ReviewItem.date =
      [some "2025-10-21", some "2025-09-29", some "2025-09-15"] ∧
    SearchRoute.reviewItems reviewRows query ≠ [] ∧
    (∀ rows : List SearchRoute.FaqRow, SearchRoute.faqHits query rows = [] →
      SearchRoute.responseSource (!(SearchRoute.faqHits query rows).isEmpty)
          (SearchRoute.reviewItems reviewRows query) = "google-review" ∧
        SearchRoute.responseSource (!(SearchRoute.faqHits query rows).isEmpty)
          (SearchRoute.reviewItems reviewRows query) ≠ "none") := by
  have hne : SearchRoute.reviewItems reviewRows query ≠ [] := by
    cases hrows : reviewRows with
    | nil =>
      simp [SearchRoute.reviewItems, SearchRoute.fallbackReviews]
    | cons a t =>
      have hlen : 0 < (SearchRoute.scoredReviews (a :: t) query).length := by
        simp [SearchRoute.scoredReviews]
      have hlen2 : 0 <
          ((SearchRoute.scoredReviews (a :: t) query).insertionSort
            SearchRoute.scoreRel).length := by
        rwa [(List.perm_insertionSort SearchRoute.scoreRel
          (SearchRoute.scoredReviews (a :: t) query)).length_eq]
      have : SearchRoute.reviewItems (a :: t) query =
          ((((SearchRoute.scoredReviews (a :: t) query).insertionSort
            SearchRoute.scoreRel).take 3).map SearchRoute.toItem) := by
        simp [SearchRoute.reviewItems]
      rw [this]
      intro hmap
      rw [List.map_eq_nil_iff] at hmap
      have h0 := congrArg List.length hmap
      rw [List.length_take] at h0
      simp only [List.length_nil] at h0
      omega
  refine ⟨?_, rfl, hne, ?_⟩
  · intro h
    simp [SearchRoute.reviewItems, h]
  · intro rows hrows
    have hfe : (SearchRoute.faqHits query rows).isEmpty = true := List.isEmpty_iff.mpr hrows
    have hie : (SearchRoute.reviewItems reviewRows query).isEmpty = false := by
      cases hri : SearchRoute.reviewItems reviewRows query with
      | nil => exact absurd hri hne
      | cons a t => rfl
    constructor
    · simp [SearchRoute.responseSource, hfe, hie]
    · simp [SearchRoute.responseSource, hfe, hie]

/-- Witness for C10: an empty review table yields the fallback list and a
`google-review` source on an FAQ miss. -/
theorem searchRoute_review_fallback_witness :
    SearchRoute.reviewItems [] "fit" = SearchRoute.fallbackReviews ∧
    SearchRoute.responseSource (!(SearchRoute.faqHits "fit" []).isEmpty)
      (SearchRoute.reviewItems [] "fit") = "google-review" := by
  have h := searchRoute_review_fallback [] "fit"
  exact ⟨h.1 rfl, (h.2.2.2 [] rfl).1⟩

/-- C4: every review returned by `rankedReviews` has a positive total
score (zero-score candidates are discarded), the output is ordered by
non-increasing total score, and at most `MAX_REVIEW_RETURN` (3) reviews
are returned. -/
theorem searchV2_rankedReviews_caps (parsedReviews : List SearchV2.PReview)
    (query : String) :
    (∀ rv ∈ SearchV2.rankedReviews parsedReviews query, 0 < rv.score) ∧
    (SearchV2.rankedReviews parsedReviews query).Pairwise SearchV2.rankRel ∧
    (SearchV2.rankedReviews parsedReviews query).length ≤ SearchV2.MAX_REVIEW_RETURN := by
  refine ⟨?_, ?_, ?_⟩
  · intro rv hrv
    have hmem : rv ∈ ((SearchV2.rankedFrom query 0 parsedReviews).filter
        (fun r => decide (0 < r.score))).insertionSort SearchV2.rankRel :=
      (List.take_sublist _ _).mem hrv
    have hmem2 : rv ∈ (SearchV2.rankedFrom query 0 parsedReviews).filter
        (fun r => decide (0 < r.score)) :=
      (List.perm_insertionSort SearchV2.rankRel _).mem_iff.mp hmem
    have := (List.mem_filter.mp hmem2).2
    exact of_decide_eq_true this
  · have hsorted := List.sorted_insertionSort SearchV2.rankRel
      ((SearchV2.rankedFrom query 0 parsedReviews).filter (fun r => decide (0 < r.score)))
    exact hsorted.sublist (List.take_sublist _ _)
  · exact List.length_take_le _ _

/-- Witness for C4: a single matching review is returned with its
positive score and the cap holds. -/
theorem searchV2_rankedReviews_caps_witness :
    (SearchV2.rankedReviews c4wList "saree").length ≤ SearchV2.MAX_REVIEW_RETURN ∧
    (0 : ℚ) < (SearchV2.toRanked "saree" 0 { text := "great saree" }).score := by
  have h := searchV2_rankedReviews_caps c4wList "saree"
  refine ⟨h.2.2, h.1 _ ?_⟩
  have heval : SearchV2.rankedReviews c4wList "saree" =
      [SearchV2.toRanked "saree" 0 { text := "great saree" }] := by
    have hs : Wimo.textMatchScore "great saree" "saree" = 1 := by decide
    norm_num [SearchV2.rankedReviews, c4wList, SearchV2.rankedFrom, SearchV2.toRanked,
      SearchV2.reviewTotal, Wimo.posBonus, SearchV2.MAX_REVIEW_RETURN,
      List.insertionSort, List.orderedInsert, Wimo.truthy, hs]
  rw [heval]
  exact List.mem_singleton.mpr rfl

/-- Counterexample to C5: the positional bonus is not strictly larger at
position 5 than at position 6 (both are zero), and on `c5List` the
candidate with the strictly higher lexical score ("blue dress", lexical 2,
position 5) ranks below the tied candidate ("dress", lexical 1 plus bonus
1, position 0) — the bonus can neutralise a one-point lexical advantage,
and the stable sort then favours the earlier position. -/
theorem searchV2_posBonus_cex :
    (5 < 6 ∧ Wimo.posBonus 5 = Wimo.posBonus 6) ∧
    Wimo.textMatchScore "dress" "blue dress" < Wimo.textMatchScore "blue dress" "blue dress" ∧
    ((SearchV2.rankedReviews c5List "blue dress").map SearchV2.RankedReview.text).take 2 =
      ["dress", "blue dress"] := by
  refine ⟨⟨by norm_num, by norm_num [Wimo.posBonus]⟩, by decide, ?_⟩
  have h1 : Wimo.textMatchScore "dress" "blue dress" = 1 := by decide
  have h2 : Wimo.textMatchScore "zzz" "blue dress" = 0 := by decide
  have h3 : Wimo.textMatchScore "blue dress" "blue dress" = 2 := by decide
  norm_num [SearchV2.rankedReviews, c5List, SearchV2.rankedFrom, SearchV2.toRanked,
    SearchV2.reviewTotal, Wimo.posBonus, SearchV2.MAX_REVIEW_RETURN,
    List.insertionSort, List.orderedInsert, SearchV2.rankRel, Wimo.truthy, h1, h2, h3]

/-- C5 (amended): the positional bonus is non-increasing in position,
strictly decreasing only while the earlier position is below 5 (from
position 5 on it is constantly zero); and since the bonus never exceeds 1,
a lexical advantage of at least 2 always yields a strictly larger total
score regardless of positions — only a one-point lexical advantage can be
tied (never overtaken) by the bonus. -/
theorem searchV2_posBonus_amended :
    (∀ i j : ℕ, i < j →
      Wimo.posBonus j ≤ Wimo.posBonus i ∧
      (i < 5 → Wimo.posBonus j < Wimo.posBonus i) ∧
      (5 ≤ i → Wimo.posBonus j = Wimo.posBonus i)) ∧
    (∀ (tA tB q : String) (iA iB : ℕ),
      Wimo.textMatchScore tB q + 2 ≤ Wimo.textMatchScore tA q →
      SearchV2.reviewTotal tB q iB < SearchV2.reviewTotal tA q iA) := by
  have hb0 : ∀ k : ℕ, 0 ≤ Wimo.posBonus k := by
    intro k
    unfold Wimo.posBonus
    have hk : (0 : ℤ) ≤ max 0 (5 - (k : ℤ)) := le_max_left 0 _
    have : (0 : ℚ) ≤ ((max 0 (5 - (k : ℤ)) : ℤ) : ℚ) := by exact_mod_cast hk
    nlinarith
  have hb1 : ∀ k : ℕ, Wimo.posBonus k ≤ 1 := by
    intro k
    unfold Wimo.posBonus
    have hk : max 0 (5 - (k : ℤ)) ≤ 5 := by omega
    have : ((max 0 (5 - (k : ℤ)) : ℤ) : ℚ) ≤ 5 := by exact_mod_cast hk
    nlinarith
  constructor
  · intro i j hij
    have hmle : max 0 (5 - (j : ℤ)) ≤ max 0 (5 - (i : ℤ)) := by omega
    have hcle : ((max 0 (5 - (j : ℤ)) : ℤ) : ℚ) ≤ ((max 0 (5 - (i : ℤ)) : ℤ) : ℚ) := by
      exact_mod_cast hmle
    refine ⟨by unfold Wimo.posBonus; nlinarith, ?_, ?_⟩
    · intro hi5
      have hmlt : max 0 (5 - (j : ℤ)) < max 0 (5 - (i : ℤ)) := by omega
      have hclt : ((max 0 (5 - (j : ℤ)) : ℤ) : ℚ) < ((max 0 (5 - (i : ℤ)) : ℤ) : ℚ) := by
        exact_mod_cast hmlt
      unfold Wimo.posBonus
      nlinarith
    · intro hi5
      have hmi : max 0 (5 - (i : ℤ)) = 0 := by omega
      have hmj : max 0 (5 - (j : ℤ)) = 0 := by omega
      unfold Wimo.posBonus
      rw [hmi, hmj]
  · intro tA tB q iA iB h
    have hq : (Wimo.textMatchScore tB q : ℚ) + 2 ≤ (Wimo.textMatchScore tA q : ℚ) := by
      exact_mod_cast h
    have h1 := hb0 iA
    have h2 := hb1 iB
    unfold SearchV2.reviewTotal
    nlinarith

/-- Witness for C5 (amended): positions 0 and 1 have strictly decreasing
bonuses, and a two-point lexical advantage wins even from position 7
against position 0. -/
theorem searchV2_posBonus_amended_witness :
    Wimo.posBonus 1 < Wimo.posBonus 0 ∧
    SearchV2.reviewTotal "zzz" "blue dress" 0 <
      SearchV2.reviewTotal "blue dress" "blue dress" 7 := by
  have h := searchV2_posBonus_amended
  exact ⟨(h.1 0 1 (by norm_num)).2.1 (by norm_num),
    h.2 "blue dress" "zzz" "blue dress" 7 0 (by decide)⟩

/-- Counterexample to C6: with four faq-bucket candidates all at
similarity 0.9 (well above the 0.55 threshold), the fourth one meets the
threshold yet is not included in the primary selection, because the
primary selection keeps only the first three filtered rows. -/
theorem searchRoute_threshold_cex :
    c6Row 4 ∈ c6Rows ∧
    SearchRoute.rowSource (c6Row 4) = "faq" ∧
    SearchRoute.FAQ_MIN_SIM ≤ (c6Row 4).similarity ∧
    c6Row 4 ∉ SearchRoute.faqPrimary c6Rows := by
  refine ⟨by simp [c6Rows], rfl, by norm_num [c6Row, SearchRoute.FAQ_MIN_SIM], ?_⟩
  have heval : SearchRoute.faqPrimary c6Rows = [c6Row 1, c6Row 2, c6Row 3] := by
    norm_num [SearchRoute.faqPrimary, SearchRoute.passesFaqFilter, SearchRoute.rowSource,
      SearchRoute.FAQ_MIN_SIM, c6Rows, c6Row, List.filter, Wimo.firstTruthy, Wimo.truthy]
  rw [heval]
  simp [c6Row]

/-- C6 (amended): membership in the threshold filter is exactly
`similarity ≥ faqMinSimilarity` for faq-bucket candidates, and the primary
selection is the first three filtered candidates — so every selected
candidate is a faq candidate at or above the threshold, a below-threshold
candidate is never selected, and whenever at most three candidates pass
the filter, selection coincides with the threshold test. -/
theorem searchRoute_threshold_amended (rows : List SearchRoute.FaqRow)
    (r : SearchRoute.FaqRow) :
    (r ∈ SearchRoute.faqPrimary rows →
      SearchRoute.rowSource r = "faq" ∧ SearchRoute.FAQ_MIN_SIM ≤ r.similarity) ∧
    (r.similarity < SearchRoute.FAQ_MIN_SIM → r ∉ SearchRoute.faqPrimary rows) ∧
    ((rows.filter SearchRoute.passesFaqFilter).length ≤ 3 → r ∈ rows →
      SearchRoute.rowSource r = "faq" →
      (r ∈ SearchRoute.faqPrimary rows ↔ SearchRoute.FAQ_MIN_SIM ≤ r.similarity)) := by
  have hpass : ∀ x : SearchRoute.FaqRow, SearchRoute.passesFaqFilter x = true ↔
      SearchRoute.rowSource x = "faq" ∧ SearchRoute.FAQ_MIN_SIM ≤ x.similarity := by
    intro x
    simp [SearchRoute.passesFaqFilter]
  have hmemf : ∀ x : SearchRoute.FaqRow, x ∈ SearchRoute.faqPrimary rows →
      x ∈ rows.filter SearchRoute.passesFaqFilter :=
    fun x hx => (List.take_sublist _ _).mem hx
  refine ⟨?_, ?_, ?_⟩
  · intro hr
    exact (hpass r).mp (List.mem_filter.mp (hmemf r hr)).2
  · intro hlt hr
    have := (hpass r).mp (List.mem_filter.mp (hmemf r hr)).2
    exact absurd this.2 (not_le.mpr hlt)
  · intro hlen hmem hsrc
    have htake : SearchRoute.faqPrimary rows = rows.filter SearchRoute.passesFaqFilter := by
      unfold SearchRoute.faqPrimary
      exact List.take_of_length_le hlen
    rw [htake]
    constructor
    · intro h
      exact ((hpass r).mp (List.mem_filter.mp h).2).2
    · intro h
      exact List.mem_filter.mpr ⟨hmem, (hpass r).mpr ⟨hsrc, h⟩⟩

/-- Witness for C6 (amended): a lone faq row at similarity 0.6 is selected,
and selection is equivalent to passing the threshold. -/
theorem searchRoute_threshold_amended_witness :
    (c6wRows.filter SearchRoute.passesFaqFilter).length ≤ 3 ∧
    c6wRow ∈ SearchRoute.faqPrimary c6wRows := by
  have h := searchRoute_threshold_amended c6wRows c6wRow
  have hlen : (c6wRows.filter SearchRoute.passesFaqFilter).length ≤ 3 := by
    norm_num [c6wRows, List.filter]
    split <;> norm_num
  refine ⟨hlen, ?_⟩
  exact (h.2.2 hlen (by simp [c6wRows]) rfl).mpr
    (by norm_num [c6wRow, SearchRoute.FAQ_MIN_SIM])

/-- C3: the rescue fallback changes nothing when the primary threshold
selection is non-empty; when the primary selection is empty, the FAQ
pipeline yields nothing if the query matches no intent keyword or no
faq-bucket candidate scores positively, and otherwise yields exactly one
candidate — a faq-bucket candidate of positive, maximal rescue score among
all faq-bucket candidates regardless of similarity. -/
theorem searchRoute_rescue_fallback (query : String) (rows : List SearchRoute.FaqRow) :
    (SearchRoute.faqPrimary rows ≠ [] →
      SearchRoute.faqHits query rows = SearchRoute.faqPrimary rows) ∧
    (SearchRoute.faqPrimary rows = [] →
      ((Wimo.looksLikeOrder query = false → SearchRoute.faqHits query rows = []) ∧
       ((∀ r ∈ rows, SearchRoute.rowSource r = "faq" → Wimo.orderScore r.content = 0) →
         SearchRoute.faqHits query rows = []) ∧
       (Wimo.looksLikeOrder query = true →
        ∀ r ∈ rows, SearchRoute.rowSource r = "faq" → 0 < Wimo.orderScore r.content →
          (SearchRoute.faqHits query rows).length = 1 ∧
          ∀ c ∈ SearchRoute.faqHits query rows,
            SearchRoute.rowSource c = "faq" ∧ 0 < Wimo.orderScore c.content ∧
            ∀ r2 ∈ rows, SearchRoute.rowSource r2 = "faq" →
              Wimo.orderScore r2.content ≤ Wimo.orderScore c.content))) := by
  constructor
  · intro h
    simp only [SearchRoute.faqHits]
    rw [if_neg (by simpa [List.isEmpty_iff] using h)]
  · intro hprim
    have hpe : (SearchRoute.faqPrimary rows).isEmpty = true := List.isEmpty_iff.mpr hprim
    have hfh : SearchRoute.faqHits query rows =
        (if (SearchRoute.rescued query rows).isEmpty = true then SearchRoute.faqPrimary rows
         else SearchRoute.rescued query rows) := by
      simp only [SearchRoute.faqHits]
      rw [if_pos hpe]
    refine ⟨?_, ?_, ?_⟩
    · intro hord
      have hres : SearchRoute.rescued query rows = [] := by
        unfold SearchRoute.rescued
        rw [if_neg (by simp [hord])]
      rw [hfh, hres]
      simpa using hprim
    · intro hzero
      have hpos : (rows.filter (fun r => SearchRoute.rowSource r == "faq")).filter
          (fun r => decide (0 < Wimo.orderScore r.content)) = [] := by
        rw [List.filter_eq_nil_iff]
        intro r hr
        have hr2 := List.mem_filter.mp hr
        have hsrc : SearchRoute.rowSource r = "faq" := by simpa using hr2.2
        have := hzero r hr2.1 hsrc
        simp [this]
      have hres : SearchRoute.rescued query rows = [] := by
        unfold SearchRoute.rescued
        split
        · rw [hpos]
          rfl
        · rfl
      rw [hfh, hres]
      simpa using hprim
    · intro hlooks r hr hsrc hposr
      have hrmem : r ∈ (rows.filter (fun x => SearchRoute.rowSource x == "faq")).filter
          (fun x => decide (0 < Wimo.orderScore x.content)) := by
        refine List.mem_filter.mpr ⟨List.mem_filter.mpr ⟨hr, by simp [hsrc]⟩, by simp [hposr]⟩
      have hne : (rows.filter (fun x => SearchRoute.rowSource x == "faq")).filter
          (fun x => decide (0 < Wimo.orderScore x.content)) ≠ [] :=
        List.ne_nil_of_mem hrmem
      have hperm := List.perm_insertionSort SearchRoute.orderRel
        ((rows.filter (fun x => SearchRoute.rowSource x == "faq")).filter
          (fun x => decide (0 < Wimo.orderScore x.content)))
      have hsne : ((rows.filter (fun x => SearchRoute.rowSource x == "faq")).filter
          (fun x => decide (0 < Wimo.orderScore x.content))).insertionSort
            SearchRoute.orderRel ≠ [] := by
        intro h0
        rw [h0] at hperm
        exact hne (List.Perm.nil_eq hperm).symm
      obtain ⟨c, rest, hcons⟩ := List.exists_cons_of_ne_nil hsne
      have hres : SearchRoute.rescued query rows = [c] := by
        unfold SearchRoute.rescued
        rw [if_pos (by simp [hlooks]), hcons]
        rfl
      have hfinal : SearchRoute.faqHits query rows = [c] := by
        rw [hfh, hres]
        rfl
      have hcmem : c ∈ (rows.filter (fun x => SearchRoute.rowSource x == "faq")).filter
          (fun x => decide (0 < Wimo.orderScore x.content)) := by
        apply hperm.mem_iff.mp
        rw [hcons]
        exact List.mem_cons_self c rest
      have hcfilters := List.mem_filter.mp hcmem
      have hcsrc : SearchRoute.rowSource c = "faq" := by
        simpa using (List.mem_filter.mp hcfilters.1).2
      have hcpos : 0 < Wimo.orderScore c.content := by simpa using hcfilters.2
      have hsorted := List.sorted_insertionSort SearchRoute.orderRel
        ((rows.filter (fun x => SearchRoute.rowSource x == "faq")).filter
          (fun x => decide (0 < Wimo.orderScore x.content)))
      rw [hcons] at hsorted
      have hmax : ∀ b ∈ rest, Wimo.orderScore b.content ≤ Wimo.orderScore c.content :=
        fun b hb => (List.pairwise_cons.mp hsorted).1 b hb
      refine ⟨by rw [hfinal]; rfl, ?_⟩
      intro c2 hc2
      rw [hfinal] at hc2
      have hc2c : c2 = c := by simpa using hc2
      subst hc2c
      refine ⟨hcsrc, hcpos, ?_⟩
      intro r2 hr2 hsrc2
      rcases Nat.eq_zero_or_pos (Wimo.orderScore r2.content) with hz | hp
      · rw [hz]
        exact Nat.zero_le _
      · have hr2mem : r2 ∈ (rows.filter (fun x => SearchRoute.rowSource x == "faq")).filter
            (fun x => decide (0 < Wimo.orderScore x.content)) :=
          List.mem_filter.mpr ⟨List.mem_filter.mpr ⟨hr2, by simp [hsrc2]⟩, by simp [hp]⟩
        have hr2sorted : r2 ∈ c2 :: rest := by
          rw [← hcons]
          exact hperm.mem_iff.mpr hr2mem
        rcases List.mem_cons.mp hr2sorted with heq | hin
        · rw [heq]
        · exact hmax r2 hin

/-- Witness for C3: a below-threshold faq row containing two intent
keywords is rescued as the single result for an order-status query. -/
theorem searchRoute_rescue_fallback_witness :
    SearchRoute.faqPrimary c3wRows = [] ∧
    Wimo.looksLikeOrder "where is my order" = true ∧
    (SearchRoute.faqHits "where is my order" c3wRows).length = 1 := by
  have hprim : SearchRoute.faqPrimary c3wRows = [] := by
    norm_num [SearchRoute.faqPrimary, SearchRoute.passesFaqFilter, SearchRoute.rowSource,
      SearchRoute.FAQ_MIN_SIM, c3wRows, c3wRow, List.filter]
  have h := (searchRoute_rescue_fallback "where is my order" c3wRows).2 hprim
  refine ⟨hprim, by decide, ?_⟩
  exact (h.2.2 (by decide) c3wRow (by simp [c3wRows]) rfl (by decide)).1
